import Mathlib

/-
Verification of the AI_Communication_Scorer scoring pipeline
(src/text_utils.py and src/scoring.py) against its specification.

Strings are modelled as `List Char`; Python floats are modelled as
rationals (all band thresholds are exact decimal values); Python ints
used as scores are modelled as `Nat`.  The two external libraries
(the VADER sentiment analyzer and the sentence-embedding model) are not
part of the repository: their numeric outputs (the `pos` probability
and the raw cosine similarity) enter the model as explicit parameters,
exactly where the Python code reads them.
-/

/-- Whitespace test matching Python's `\s` / `str.split()` / `str.strip()`
for the ASCII range (the transcripts the rubric targets are English text). -/
def isSpace (c : Char) : Bool :=
  c = ' ' || c = '\t' || c = '\n' || c = '\r' || c = '\x0b' || c = '\x0c'

/-- Sentence-terminating punctuation of `re.split(r"[.!?]+", ...)`
in `get_basic_stats`. -/
def isPunct (c : Char) : Bool :=
  c = '.' || c = '!' || c = '?'

/-- Python `str.lower()` restricted to ASCII: uppercase letters move down by
32 code points, everything else is unchanged. -/
def lowerChar (c : Char) : Char :=
  if 'A' ≤ c ∧ c ≤ 'Z' then Char.ofNat (c.toNat + 32) else c

/-- Lowercasing of a whole string, character by character. -/
def lowerList (l : List Char) : List Char :=
  l.map lowerChar

/-- Left part of Python `str.strip()`: drop leading whitespace. -/
def lstrip (l : List Char) : List Char :=
  l.dropWhile isSpace

/-- Right part of Python `str.strip()`: drop trailing whitespace. -/
def rstrip (l : List Char) : List Char :=
  (l.reverse.dropWhile isSpace).reverse

/-- Python `str.strip()`: drop whitespace at both ends. -/
def stripWS (l : List Char) : List Char :=
  rstrip (lstrip l)

/-- Boolean prefix test: `isPrefixOfL pat l` holds when `pat` is an initial
segment of `l`. -/
def isPrefixOfL : List Char → List Char → Bool
  | [], _ => true
  | _ :: _, [] => false
  | p :: ps, c :: l => p == c && isPrefixOfL ps l

/-- Python's substring containment `pat in l` for strings. -/
def hasSub : List Char → List Char → Bool
  | [], pat => isPrefixOfL pat []
  | c :: l, pat => isPrefixOfL pat (c :: l) || hasSub l pat

/-- Helper for `countSub`: scan left to right; a positive `skip` means the
position still lies inside the previously matched occurrence. -/
def countSubAux : List Char → List Char → ℕ → ℕ
  | [], _, _ => 0
  | c :: rest, pat, skip =>
    match skip with
    | s + 1 => countSubAux rest pat s
    | 0 =>
      if isPrefixOfL pat (c :: rest) && !pat.isEmpty then
        1 + countSubAux rest pat (pat.length - 1)
      else
        countSubAux rest pat 0

/-- Python `str.count(pat)` for a nonempty pattern: the number of
non-overlapping occurrences, scanning left to right (the sources only call
`count` on fixed nonempty patterns). -/
def countSub (l pat : List Char) : ℕ :=
  countSubAux l pat 0

/-- Splitting a string at every character satisfying `p`; the pieces between
separators are kept, including empty ones. -/
def splitOnP (p : Char → Bool) : List Char → List (List Char)
  | [] => [[]]
  | c :: l =>
    let r := splitOnP p l
    if p c then [] :: r else (c :: r.headD []) :: r.tail

/-- Python `str.split()` with no argument: split on whitespace and drop the
empty pieces. -/
def splitWS (l : List Char) : List (List Char) :=
  (splitOnP isSpace l).filter (· ≠ [])

/-- Containment of any phrase of a list, Python `any(p in t for p in ps)`. -/
def containsAny (t : List Char) (ps : List String) : Bool :=
  ps.any (fun p => hasSub t p.toList)

/-- First step of `preprocess_text`:
`text.replace("\r", " ").replace("\n", " ")`. -/
def replaceNL (l : List Char) : List Char :=
  l.map (fun c => if c = '\r' then ' ' else if c = '\n' then ' ' else c)

/-- Second step of `preprocess_text`: `re.sub(r"\s+", " ", text)` — every
maximal run of whitespace becomes a single space. -/
def collapseWS : List Char → List Char
  | [] => []
  | c :: l =>
    let r := collapseWS l
    if isSpace c then
      match r with
      | ' ' :: _ => r
      | _ => ' ' :: r
    else c :: r

/-- Model of `preprocess_text` from src/text_utils.py: replace CR/LF by
spaces, collapse whitespace runs, strip, lowercase. -/
def preprocess_text (text : List Char) : List Char :=
  if text = [] then []
  else lowerList (stripWS (collapseWS (replaceNL text)))

/-- Record returned by `get_basic_stats`. -/
structure BasicStats where
  tokens : List (List Char)
  total_words : ℕ
  distinct_words : ℕ
  sentences : List (List Char)
  sentence_count : ℕ
deriving Repr

/-- Model of `get_basic_stats` from src/text_utils.py.  Sentences come from
`re.split(r"[.!?]+", clean)`: splitting at single punctuation characters
instead of maximal runs only adds empty pieces, which the `if s.strip()`
filter discards either way. -/
def get_basic_stats (text : List Char) : BasicStats :=
  let clean := stripWS text
  if clean = [] then
    { tokens := [], total_words := 0, distinct_words := 0
      sentences := [], sentence_count := 0 }
  else
    let tokens := splitWS clean
    let sentences := ((splitOnP isPunct clean).map stripWS).filter (· ≠ [])
    { tokens := tokens
      total_words := tokens.length
      distinct_words := tokens.dedup.length
      sentences := sentences
      sentence_count := sentences.length }

/-- Model of `compute_ttr` from src/text_utils.py. -/
def compute_ttr (total_words distinct_words : ℕ) : ℚ :=
  if total_words = 0 then 0 else (distinct_words : ℚ) / (total_words : ℚ)

/-- Model of `count_filler_words` from src/text_utils.py: multi-word fillers
are counted by substring occurrences, single-word fillers by exact token
matches. -/
def count_filler_words (text : List Char) (fillers : List String) : ℕ :=
  if text = [] then 0
  else
    let text_lower := lowerList text
    let tokens := splitWS text_lower
    (fillers.map (fun f0 =>
      let f := stripWS (lowerList f0.toList)
      if f.contains ' ' then countSub text_lower f else tokens.count f)).sum

/-- Enthusiastic first-sentence phrases of `detect_salutation_level`. -/
def enthusiastic_phrases : List String :=
  ["excited to introduce myself", "thrilled to introduce myself",
   "thrilled to be here", "excited to be here",
   "i am excited to introduce", "i'm excited to introduce"]

/-- Formal greetings of `detect_salutation_level`. -/
def formal_greetings : List String :=
  ["good morning", "good afternoon", "good evening",
   "hello everyone", "hello everybody"]

/-- Simple greetings of `detect_salutation_level`. -/
def simple_greetings : List String :=
  ["hello", "hi", "hey"]

/-- Tier scan over the (lowercased) first sentence: the three phrase tiers
are tried in order and the first match fixes the score. -/
def salutationTier (first : List Char) : ℕ :=
  if containsAny first enthusiastic_phrases then 5
  else if containsAny first formal_greetings then 4
  else if containsAny first simple_greetings then 2
  else 0

/-- Model of `detect_salutation_level` from src/text_utils.py. -/
def detect_salutation_level (text : List Char) : ℕ :=
  if text = [] then 0
  else
    match (get_basic_stats text).sentences with
    | [] => 0
    | first :: _ => salutationTier (lowerList first)

/-- Flags returned by `detect_keywords`. -/
structure KeywordFlags where
  has_name : Bool
  has_age : Bool
  has_school_class : Bool
  has_family : Bool
  has_hobbies : Bool
  has_about_family : Bool
  has_location : Bool
  has_ambition : Bool
  has_fun_fact : Bool
  has_strengths_or_achievements : Bool
deriving Repr

/-- Model of `detect_keywords` from src/text_utils.py. -/
def detect_keywords (text : List Char) : KeywordFlags :=
  let t := lowerList text
  { has_name := containsAny t ["my name is", "myself", "i am "]
    has_age := hasSub t "years old".toList
    has_school_class := containsAny t ["class ", "standard", "grade ", "school"]
    has_family := containsAny t
      ["family", "mother", "father", "parents", "brother", "sister"]
    has_hobbies := containsAny t
      ["my hobby is", "my hobbies are", "i like to", "i love to",
       "i enjoy", "in my free time"]
    has_about_family := containsAny t
      ["my family is", "we are a family of", "there are",
       "members in my family"]
    has_location := containsAny t
      ["i am from", "i'm from", "i live in", "my hometown"]
    has_ambition := containsAny t
      ["i want to become", "i want to be", "my dream is", "my goal is",
       "my ambition is"]
    has_fun_fact := containsAny t
      ["fun fact", "something unique about me", "one thing about me",
       "an interesting thing about me"]
    has_strengths_or_achievements := containsAny t
      ["i am good at", "i'm good at", "my strength is", "my strengths are",
       "i have won", "i won", "i achieved", "i have achieved"] }

/-- Model of `_sentence_has_basic` from src/text_utils.py. -/
def sentenceHasBasic (s0 : List Char) : Bool :=
  let s := lowerList s0
  containsAny s ["my name is", "myself", "i am "]
  || hasSub s "years old".toList
  || containsAny s ["class ", "standard", "grade ", "school"]
  || containsAny s ["i am from", "i live in", "i'm from", "my hometown"]

/-- Model of `_sentence_has_additional` from src/text_utils.py. -/
def sentenceHasAdditional (s0 : List Char) : Bool :=
  let s := lowerList s0
  containsAny s ["family", "mother", "father", "parents", "brother", "sister"]
  || containsAny s ["my hobby is", "my hobbies are", "i like to", "i love to",
       "i enjoy", "in my free time"]
  || containsAny s ["i want to become", "i want to be", "my dream is",
       "my goal is", "my ambition is"]
  || containsAny s ["fun fact", "something unique about me",
       "one thing about me", "an interesting thing about me"]
  || containsAny s ["i am good at", "i'm good at", "my strength is",
       "my strengths are", "i have won", "i won", "i achieved",
       "i have achieved"]

/-- Model of `_sentence_has_salutation` from src/text_utils.py. -/
def sentenceHasSalutation (s0 : List Char) : Bool :=
  let s := lowerList s0
  containsAny s ["good morning", "good afternoon", "good evening"]
  || containsAny s ["hello", "hi", "hey"]
  || containsAny s ["excited to introduce myself",
       "thrilled to introduce myself", "excited to be here",
       "thrilled to be here"]

/-- Model of `_sentence_has_closing` from src/text_utils.py. -/
def sentenceHasClosing (s0 : List Char) : Bool :=
  let s := lowerList s0
  hasSub s "thank you".toList || hasSub s "thanks for listening".toList
  || hasSub s "that's all".toList

/-- Model of `detect_structure_tags` from src/text_utils.py: one tag per
sentence, first matching category wins. -/
def detect_structure_tags (sentences : List (List Char)) : List String :=
  sentences.map (fun s =>
    if sentenceHasSalutation s then "SALUTATION"
    else if sentenceHasClosing s then "CLOSING"
    else if sentenceHasBasic s then "BASIC"
    else if sentenceHasAdditional s then "ADDITIONAL"
    else "OTHER")

/-- Model of `score_salutation` from src/scoring.py. -/
def score_salutation (text : List Char) : ℕ :=
  detect_salutation_level text

/-- One pass of the labelled-flag loops inside `score_keywords`: each present
concept adds `pts` and its label to `present`, each absent one adds its label
to `missing`. -/
def kwFold (pts : ℕ) :
    List (String × Bool) → ℕ × List String × List String →
    ℕ × List String × List String
  | [], acc => acc
  | it :: its, acc =>
    kwFold pts its
      (if it.2 then (acc.1 + pts, acc.2.1 ++ [it.1], acc.2.2)
       else (acc.1, acc.2.1, acc.2.2 ++ [it.1]))

/-- Labelled must-have concepts of `score_keywords`, in source order. -/
def mustHaveItems (kw : KeywordFlags) : List (String × Bool) :=
  [("Name", kw.has_name), ("Age", kw.has_age),
   ("School/Class", kw.has_school_class), ("Family", kw.has_family),
   ("Hobbies/Interests", kw.has_hobbies)]

/-- Labelled good-to-have concepts of `score_keywords`, in source order. -/
def goodToHaveItems (kw : KeywordFlags) : List (String × Bool) :=
  [("About family (details)", kw.has_about_family),
   ("Location/Origin", kw.has_location),
   ("Ambition/Goal/Dream", kw.has_ambition),
   ("Fun fact / Unique thing", kw.has_fun_fact),
   ("Strengths/Achievements", kw.has_strengths_or_achievements)]

/-- Model of `score_keywords` from src/scoring.py: 4 points per must-have,
then 2 points per good-to-have, with present/missing label lists. -/
def score_keywords (text : List Char) : ℕ × List String × List String :=
  let kw := detect_keywords text
  kwFold 2 (goodToHaveItems kw) (kwFold 4 (mustHaveItems kw) (0, [], []))

/-- Model of `score_flow` from src/scoring.py. -/
def score_flow (sentences : List (List Char)) (tags : List String) : ℕ :=
  if sentences = [] ∨ tags = [] then 0
  else if "SALUTATION" ∈ tags ∧ "BASIC" ∈ tags ∧ "CLOSING" ∈ tags then 5
  else 0

/-- Model of `score_speech_rate` from src/scoring.py; the float duration is
modelled as a rational. -/
def score_speech_rate (total_words : ℕ) (duration_sec : ℚ) : ℕ × ℚ :=
  if total_words = 0 ∨ duration_sec ≤ 0 then (0, 0)
  else
    let wpm : ℚ := (total_words : ℚ) * 60 / duration_sec
    if wpm < 80 ∨ wpm > 161 then (2, wpm)
    else if (81 ≤ wpm ∧ wpm ≤ 110) ∨ (141 ≤ wpm ∧ wpm ≤ 160) then (6, wpm)
    else if 111 ≤ wpm ∧ wpm ≤ 140 then (10, wpm)
    else (2, wpm)

/-- Model of `score_grammar` from src/scoring.py: heuristic error estimate
from lowercase standalone "i", double spaces and letter-digit tokens. -/
def score_grammar (text : List Char) (total_words : ℕ) : ℕ × ℚ :=
  if total_words = 0 then (0, 0)
  else
    let lower_text := lowerList text
    let lower_i_errors := countSub lower_text " i ".toList
    let double_space_errors := countSub text "  ".toList
    let weird_punc_errors :=
      ((splitWS text).filter
        (fun tok => tok.any Char.isDigit && tok.any Char.isAlpha)).length
    let errors_est := lower_i_errors + double_space_errors + weird_punc_errors
    let errors_per_100 : ℚ :=
      min ((errors_est : ℚ) / (max total_words 1 : ℕ) * 100) 100
    let gram_frac : ℚ := 1 - min (errors_per_100 / 20) 1
    (if gram_frac > 0.8 then 10
     else if 0.6 ≤ gram_frac ∧ gram_frac ≤ 0.8 then 8
     else if 0.4 ≤ gram_frac ∧ gram_frac < 0.6 then 6
     else if 0.2 ≤ gram_frac ∧ gram_frac < 0.4 then 4
     else 2, errors_per_100)

/-- Model of `score_vocabulary` from src/scoring.py. -/
def score_vocabulary (total_words distinct_words : ℕ) : ℕ × ℚ :=
  if total_words = 0 then (0, 0)
  else
    let ttr := compute_ttr total_words distinct_words
    (if 0.9 ≤ ttr ∧ ttr ≤ 1.0 then 10
     else if 0.7 ≤ ttr ∧ ttr < 0.9 then 8
     else if 0.5 ≤ ttr ∧ ttr < 0.7 then 6
     else if 0.3 ≤ ttr ∧ ttr < 0.5 then 4
     else 2, ttr)

/-- Filler list defined inside `score_clarity` in src/scoring.py. -/
def fillerList : List String :=
  ["um", "uh", "like", "you know", "so", "actually", "basically", "right",
   "i mean", "well", "kinda", "sort of", "okay", "hmm", "ah"]

/-- Model of `score_clarity` from src/scoring.py. -/
def score_clarity (text : List Char) (total_words : ℕ) : ℕ × ℚ × ℕ :=
  if total_words = 0 then (0, 0, 0)
  else
    let filler_count := count_filler_words text fillerList
    let filler_rate : ℚ := (filler_count : ℚ) / (total_words : ℚ) * 100
    (if 0 ≤ filler_rate ∧ filler_rate ≤ 3 then 15
     else if 4 ≤ filler_rate ∧ filler_rate ≤ 6 then 12
     else if 7 ≤ filler_rate ∧ filler_rate ≤ 9 then 9
     else if 10 ≤ filler_rate ∧ filler_rate ≤ 12 then 6
     else 3, filler_rate, filler_count)

/-- Model of `score_engagement` from src/scoring.py.  The VADER sentiment
analyzer is an external library; its `pos` probability for the scored text is
the parameter `pos` (VADER yields `pos = 0.0` for the empty string).  Only
the band mapping below is code of this repository. -/
def score_engagement (pos : ℚ) : ℕ × ℚ :=
  (if pos ≥ 0.7 then 15
   else if 0.5 ≤ pos ∧ pos < 0.7 then 12
   else if 0.3 ≤ pos ∧ pos < 0.5 then 9
   else if 0.1 ≤ pos ∧ pos < 0.3 then 6
   else 3, pos)

/-- Keys of `CRITERION_DESCRIPTIONS` / `CRITERION_EMBEDDINGS` in
src/scoring.py. -/
def criterionKeys : List String :=
  ["content", "language", "clarity", "engagement"]

/-- Model of `compute_semantic_similarity` from src/scoring.py.  The
sentence-embedding model is external: `rawCos text key` stands for the raw
cosine similarity `util.pytorch_cos_sim(...).item()` between the embedding of
`text` and the cached embedding for `key`.  The clamp into [0, 1] is code of
this repository. -/
def compute_semantic_similarity (rawCos : List Char → String → ℚ)
    (text : List Char) (criterion_key : String) : ℚ :=
  if criterion_key ∈ criterionKeys then
    max 0 (min 1 (rawCos text criterion_key))
  else 0

/-- Result record assembled by `score_transcript` in src/scoring.py. -/
structure ScoreResult where
  total_score : ℕ
  stats : BasicStats
  wpm : ℚ
  salutation_score : ℕ
  keyword_score : ℕ
  present_keywords : List String
  missing_keywords : List String
  flow_score : ℕ
  speech_score : ℕ
  grammar_score : ℕ
  errors_per_100 : ℚ
  vocab_score : ℕ
  ttr : ℚ
  clarity_score : ℕ
  filler_rate : ℚ
  filler_count : ℕ
  engagement_score : ℕ
  pos_prob : ℚ
  tags : List String
  content_semantic : ℚ
  language_semantic : ℚ
  clarity_semantic : ℚ
  engagement_semantic : ℚ

/-- Model of `score_transcript` from src/scoring.py.  The outputs of the two
external models are parameters: `pos` is the VADER positivity for the raw
`text`, and `rawCos` is the raw cosine similarity of the embedding backend. -/
def score_transcript (text : List Char) (duration_sec : ℚ) (pos : ℚ)
    (rawCos : List Char → String → ℚ) : ScoreResult :=
  let clean_text := preprocess_text text
  let stats := get_basic_stats clean_text
  let total_words := stats.total_words
  let distinct_words := stats.distinct_words
  let sentences := stats.sentences
  let salutation_score := score_salutation clean_text
  let kwres := score_keywords clean_text
  let tags := detect_structure_tags sentences
  let flow_score := score_flow sentences tags
  let speech := score_speech_rate total_words duration_sec
  let grammar := score_grammar text total_words
  let vocab := score_vocabulary total_words distinct_words
  let clarity := score_clarity clean_text total_words
  let engagement := score_engagement pos
  let total_score :=
    salutation_score + kwres.1 + flow_score + speech.1 + grammar.1
      + vocab.1 + clarity.1 + engagement.1
  { total_score := total_score
    stats := stats
    wpm := speech.2
    salutation_score := salutation_score
    keyword_score := kwres.1
    present_keywords := kwres.2.1
    missing_keywords := kwres.2.2
    flow_score := flow_score
    speech_score := speech.1
    grammar_score := grammar.1
    errors_per_100 := grammar.2
    vocab_score := vocab.1
    ttr := vocab.2
    clarity_score := clarity.1
    filler_rate := clarity.2.1
    filler_count := clarity.2.2
    engagement_score := engagement.1
    pos_prob := engagement.2
    tags := tags
    content_semantic := compute_semantic_similarity rawCos clean_text "content"
    language_semantic := compute_semantic_similarity rawCos clean_text "language"
    clarity_semantic := compute_semantic_similarity rawCos clean_text "clarity"
    engagement_semantic := compute_semantic_similarity rawCos clean_text "engagement" }

theorem isPrefixOfL_iff (p l : List Char) :
    isPrefixOfL p l = true ↔ ∃ t, l = p ++ t := by
  induction p generalizing l with
  | nil => simp [isPrefixOfL]
  | cons a ps ih =>
    cases l with
    | nil => simp [isPrefixOfL]
    | cons c cs =>
      simp only [isPrefixOfL, Bool.and_eq_true, beq_iff_eq, ih,
        List.cons_append, List.cons.injEq]
      constructor
      · rintro ⟨rfl, t, rfl⟩
        exact ⟨t, rfl, rfl⟩
      · rintro ⟨t, rfl, rfl⟩
        exact ⟨rfl, t, rfl⟩

theorem hasSub_iff (l pat : List Char) :
    hasSub l pat = true ↔ ∃ u v, l = u ++ (pat ++ v) := by
  induction l with
  | nil =>
    simp only [hasSub, isPrefixOfL_iff]
    constructor
    · rintro ⟨t, ht⟩
      exact ⟨[], t, ht⟩
    · rintro ⟨u, v, huv⟩
      have hu : u = [] := by
        cases u with
        | nil => rfl
        | cons a as => simp at huv
      subst hu
      exact ⟨v, huv⟩
  | cons c cs ih =>
    simp only [hasSub, Bool.or_eq_true, isPrefixOfL_iff, ih]
    constructor
    · rintro (⟨t, ht⟩ | ⟨u, v, huv⟩)
      · exact ⟨[], t, by simp [ht]⟩
      · exact ⟨c :: u, v, by simp [huv]⟩
    · rintro ⟨u, v, huv⟩
      cases u with
      | nil => exact Or.inl ⟨v, by simpa using huv⟩
      | cons a as =>
        simp only [List.cons_append, List.cons.injEq] at huv
        exact Or.inr ⟨as, v, huv.2⟩

theorem hasSub_append_right (x y pat : List Char) (h : hasSub x pat = true) :
    hasSub (x ++ y) pat = true := by
  rw [hasSub_iff] at h ⊢
  obtain ⟨u, v, rfl⟩ := h
  exact ⟨u, v ++ y, by simp⟩

theorem hasSub_trans (l p q : List Char) (hp : hasSub l p = true)
    (hq : hasSub p q = true) : hasSub l q = true := by
  rw [hasSub_iff] at hp hq ⊢
  obtain ⟨u, v, rfl⟩ := hp
  obtain ⟨u', v', rfl⟩ := hq
  exact ⟨u ++ u', v' ++ v, by simp⟩

theorem mem_of_hasSub (l pat : List Char) (h : hasSub l pat = true) :
    ∀ c ∈ pat, c ∈ l := by
  rw [hasSub_iff] at h
  obtain ⟨u, v, rfl⟩ := h
  intro c hc
  simp [hc]

theorem salutationTier_cases (first : List Char) :
    salutationTier first = 0 ∨ salutationTier first = 2 ∨
    salutationTier first = 4 ∨ salutationTier first = 5 := by
  unfold salutationTier
  split_ifs <;> simp

theorem detect_salutation_level_cases (text : List Char) :
    detect_salutation_level text = 0 ∨ detect_salutation_level text = 2 ∨
    detect_salutation_level text = 4 ∨ detect_salutation_level text = 5 := by
  unfold detect_salutation_level
  split_ifs
  · simp
  · split
    · simp
    · exact salutationTier_cases _

theorem detect_salutation_level_le (text : List Char) :
    detect_salutation_level text ≤ 5 := by
  rcases detect_salutation_level_cases text with h | h | h | h <;> omega

theorem kwFold_fst (pts : ℕ) (items : List (String × Bool))
    (acc : ℕ × List String × List String) :
    (kwFold pts items acc).1 =
      acc.1 + pts * (items.filter (fun p => p.2)).length := by
  induction items generalizing acc with
  | nil => simp [kwFold]
  | cons it its ih =>
    rw [kwFold, ih, List.filter_cons]
    by_cases h : it.2 = true
    · simp [h]
      ring
    · simp [h]

theorem score_keywords_fst (text : List Char) :
    (score_keywords text).1 =
      4 * ((mustHaveItems (detect_keywords text)).filter (fun p => p.2)).length
      + 2 * ((goodToHaveItems (detect_keywords text)).filter (fun p => p.2)).length := by
  unfold score_keywords
  rw [kwFold_fst, kwFold_fst]
  omega

theorem score_keywords_le (text : List Char) : (score_keywords text).1 ≤ 30 := by
  rw [score_keywords_fst]
  have h1 := List.length_filter_le (fun p => p.2) (mustHaveItems (detect_keywords text))
  have h2 := List.length_filter_le (fun p => p.2) (goodToHaveItems (detect_keywords text))
  have e1 : (mustHaveItems (detect_keywords text)).length = 5 := rfl
  have e2 : (goodToHaveItems (detect_keywords text)).length = 5 := rfl
  rw [e1] at h1
  rw [e2] at h2
  omega

theorem score_flow_cases (sentences : List (List Char)) (tags : List String) :
    score_flow sentences tags = 0 ∨ score_flow sentences tags = 5 := by
  unfold score_flow
  split_ifs <;> simp

theorem score_speech_rate_le (w : ℕ) (d : ℚ) : (score_speech_rate w d).1 ≤ 10 := by
  unfold score_speech_rate
  simp only [apply_ite Prod.fst]
  split_ifs <;> simp

theorem score_grammar_le (text : List Char) (w : ℕ) :
    (score_grammar text w).1 ≤ 10 := by
  unfold score_grammar
  simp only [apply_ite Prod.fst]
  split_ifs <;> simp

theorem score_vocabulary_le (w dw : ℕ) : (score_vocabulary w dw).1 ≤ 10 := by
  unfold score_vocabulary
  simp only [apply_ite Prod.fst]
  split_ifs <;> simp

theorem score_clarity_le (text : List Char) (w : ℕ) :
    (score_clarity text w).1 ≤ 15 := by
  unfold score_clarity
  simp only [apply_ite Prod.fst]
  split_ifs <;> simp

theorem score_engagement_band (pos : ℚ) :
    (score_engagement pos).1 = 3 ∨ (score_engagement pos).1 = 6 ∨
    (score_engagement pos).1 = 9 ∨ (score_engagement pos).1 = 12 ∨
    (score_engagement pos).1 = 15 := by
  unfold score_engagement
  simp only [apply_ite Prod.fst]
  split_ifs <;> simp

theorem score_engagement_ge (pos : ℚ) : 3 ≤ (score_engagement pos).1 := by
  rcases score_engagement_band pos with h | h | h | h | h <;> omega

theorem score_engagement_le (pos : ℚ) : (score_engagement pos).1 ≤ 15 := by
  rcases score_engagement_band pos with h | h | h | h | h <;> omega

/-- C1: for every transcript, duration and external-model output, the
`total_score` returned by `score_transcript` equals the exact sum of the
eight sub-scores and lies in [0, 100]. -/
theorem C1_total_is_sum_and_in_range (text : List Char) (duration_sec pos : ℚ)
    (rawCos : List Char → String → ℚ) :
    (score_transcript text duration_sec pos rawCos).total_score
      = (score_transcript text duration_sec pos rawCos).salutation_score
        + (score_transcript text duration_sec pos rawCos).keyword_score
        + (score_transcript text duration_sec pos rawCos).flow_score
        + (score_transcript text duration_sec pos rawCos).speech_score
        + (score_transcript text duration_sec pos rawCos).grammar_score
        + (score_transcript text duration_sec pos rawCos).vocab_score
        + (score_transcript text duration_sec pos rawCos).clarity_score
        + (score_transcript text duration_sec pos rawCos).engagement_score
    ∧ 0 ≤ (score_transcript text duration_sec pos rawCos).total_score
    ∧ (score_transcript text duration_sec pos rawCos).total_score ≤ 100 := by
  refine ⟨rfl, Nat.zero_le _, ?_⟩
  have e : (score_transcript text duration_sec pos rawCos).total_score
      = detect_salutation_level (preprocess_text text)
        + (score_keywords (preprocess_text text)).1
        + score_flow (get_basic_stats (preprocess_text text)).sentences
            (detect_structure_tags (get_basic_stats (preprocess_text text)).sentences)
        + (score_speech_rate (get_basic_stats (preprocess_text text)).total_words
            duration_sec).1
        + (score_grammar text (get_basic_stats (preprocess_text text)).total_words).1
        + (score_vocabulary (get_basic_stats (preprocess_text text)).total_words
            (get_basic_stats (preprocess_text text)).distinct_words).1
        + (score_clarity (preprocess_text text)
            (get_basic_stats (preprocess_text text)).total_words).1
        + (score_engagement pos).1 := rfl
  rw [e]
  have h1 := detect_salutation_level_le (preprocess_text text)
  have h2 := score_keywords_le (preprocess_text text)
  have h3 := score_flow_cases (get_basic_stats (preprocess_text text)).sentences
    (detect_structure_tags (get_basic_stats (preprocess_text text)).sentences)
  have h4 := score_speech_rate_le
    (get_basic_stats (preprocess_text text)).total_words duration_sec
  have h5 := score_grammar_le text (get_basic_stats (preprocess_text text)).total_words
  have h6 := score_vocabulary_le (get_basic_stats (preprocess_text text)).total_words
    (get_basic_stats (preprocess_text text)).distinct_words
  have h7 := score_clarity_le (preprocess_text text)
    (get_basic_stats (preprocess_text text)).total_words
  have h8 := score_engagement_le pos
  rcases h3 with h3 | h3 <;> omega

/-- C3: `score_speech_rate` maps wpm = words*60/duration to the rubric bands
(2 / 6 / 10, with the boundary gaps falling to 2), scores 150 words over 60
seconds as 6 and 130 words over 60 seconds as 10, and returns (0, 0) when
there are no words or the duration is not positive. -/
theorem C3_speech_rate_bands :
    (∀ (w : ℕ) (d : ℚ), 0 < w → 0 < d →
      (((w : ℚ) * 60 / d < 80 ∨ (w : ℚ) * 60 / d > 161 →
          (score_speech_rate w d).1 = 2)
        ∧ ((81 ≤ (w : ℚ) * 60 / d ∧ (w : ℚ) * 60 / d ≤ 110) ∨
            (141 ≤ (w : ℚ) * 60 / d ∧ (w : ℚ) * 60 / d ≤ 160) →
          (score_speech_rate w d).1 = 6)
        ∧ (111 ≤ (w : ℚ) * 60 / d ∧ (w : ℚ) * 60 / d ≤ 140 →
          (score_speech_rate w d).1 = 10)
        ∧ (¬((w : ℚ) * 60 / d < 80 ∨ (w : ℚ) * 60 / d > 161) →
            ¬((81 ≤ (w : ℚ) * 60 / d ∧ (w : ℚ) * 60 / d ≤ 110) ∨
              (141 ≤ (w : ℚ) * 60 / d ∧ (w : ℚ) * 60 / d ≤ 160)) →
            ¬(111 ≤ (w : ℚ) * 60 / d ∧ (w : ℚ) * 60 / d ≤ 140) →
          (score_speech_rate w d).1 = 2)
        ∧ (score_speech_rate w d).2 = (w : ℚ) * 60 / d))
    ∧ score_speech_rate 150 60 = (6, 150)
    ∧ score_speech_rate 130 60 = (10, 130)
    ∧ (∀ (w : ℕ) (d : ℚ), w = 0 ∨ d ≤ 0 → score_speech_rate w d = (0, 0)) := by
  refine ⟨?_, ?_, ?_, ?_⟩
  · intro w d hw hd
    have hg : ¬(w = 0 ∨ d ≤ 0) := by push_neg; exact ⟨by omega, hd⟩
    unfold score_speech_rate
    rw [if_neg hg]
    refine ⟨?_, ?_, ?_, ?_, ?_⟩
    · intro h
      rw [if_pos h]
    · intro h
      have hn : ¬((w : ℚ) * 60 / d < 80 ∨ (w : ℚ) * 60 / d > 161) := by
        rcases h with ⟨ha, hb⟩ | ⟨ha, hb⟩ <;> push_neg <;> constructor <;> linarith
      rw [if_neg hn, if_pos h]
    · intro h
      have hn1 : ¬((w : ℚ) * 60 / d < 80 ∨ (w : ℚ) * 60 / d > 161) := by
        push_neg; constructor <;> linarith [h.1, h.2]
      have hn2 : ¬((81 ≤ (w : ℚ) * 60 / d ∧ (w : ℚ) * 60 / d ≤ 110) ∨
          (141 ≤ (w : ℚ) * 60 / d ∧ (w : ℚ) * 60 / d ≤ 160)) := by
        push_neg
        constructor <;> intro hx <;> linarith [h.1, h.2]
      rw [if_neg hn1, if_neg hn2, if_pos h]
    · intro h1 h2 h3
      rw [if_neg h1, if_neg h2, if_neg h3]
    · simp only [apply_ite Prod.snd]
      split_ifs <;> rfl
  · norm_num [score_speech_rate]
  · norm_num [score_speech_rate]
  · intro w d h
    unfold score_speech_rate
    rw [if_pos h]

/-- Witness for C3 at concrete inputs: 150 words over 60 seconds score 6,
130 words over 60 seconds score 10, and the ideal band yields 10. -/
theorem C3_speech_rate_bands_witness :
    score_speech_rate 150 60 = (6, 150) ∧ score_speech_rate 130 60 = (10, 130)
    ∧ (score_speech_rate 120 60).1 = 10 ∧ score_speech_rate 0 (-3) = (0, 0) := by
  have h := C3_speech_rate_bands
  refine ⟨h.2.1, h.2.2.1, ?_, h.2.2.2 0 (-3) (Or.inl rfl)⟩
  exact (h.1 120 60 (by norm_num) (by norm_num)).2.2.1 (by norm_num)

/-- C6 counterexample: with an empty sentence list but a tag list containing
all three of SALUTATION, BASIC and CLOSING, `score_flow` returns 0, not the
5 the claim requires for every sentence list and tag list. -/
theorem C6_counterexample :
    score_flow [] ["SALUTATION", "BASIC", "CLOSING"] = 0
    ∧ "SALUTATION" ∈ (["SALUTATION", "BASIC", "CLOSING"] : List String)
    ∧ "BASIC" ∈ (["SALUTATION", "BASIC", "CLOSING"] : List String)
    ∧ "CLOSING" ∈ (["SALUTATION", "BASIC", "CLOSING"] : List String)
    ∧ score_flow [] ["SALUTATION", "BASIC", "CLOSING"] ≠ 5 := by
  refine ⟨rfl, by simp, by simp, by simp, by decide⟩

/-- C6 (amended): `score_flow` returns 5 iff the sentence list is nonempty
and the tag sequence contains at least one each of SALUTATION, BASIC and
CLOSING (regardless of ADDITIONAL/OTHER tags and of order), and returns
exactly 0 otherwise. -/
theorem C6_flow_iff (sentences : List (List Char)) (tags : List String) :
    (score_flow sentences tags = 5 ↔
      sentences ≠ [] ∧ "SALUTATION" ∈ tags ∧ "BASIC" ∈ tags ∧ "CLOSING" ∈ tags)
    ∧ (score_flow sentences tags = 0 ∨ score_flow sentences tags = 5) := by
  refine ⟨?_, score_flow_cases sentences tags⟩
  unfold score_flow
  split_ifs with h1 h2
  · simp only [show (0 : ℕ) ≠ 5 by decide, false_iff]
    rintro ⟨hs, hS, hB, hC⟩
    rcases h1 with h1 | h1
    · exact hs h1
    · rw [h1] at hS
      exact List.not_mem_nil _ hS
  · simp only [true_iff, eq_self_iff_true]
    push_neg at h1
    exact ⟨h1.1, h2.1, h2.2.1, h2.2.2⟩
  · simp only [show (0 : ℕ) ≠ 5 by decide, false_iff]
    rintro ⟨hs, hS, hB, hC⟩
    exact h2 ⟨hS, hB, hC⟩

/-- Witness for C6 (amended) at a concrete input: one sentence tagged with
all three required tags scores 5. -/
theorem C6_flow_iff_witness :
    score_flow [['a']] ["SALUTATION", "BASIC", "CLOSING", "OTHER"] = 5 := by
  have h := C6_flow_iff [['a']] ["SALUTATION", "BASIC", "CLOSING", "OTHER"]
  exact h.1.mpr ⟨by simp, by simp, by simp, by simp⟩

/-- C8: `compute_semantic_similarity` always returns a value in [0, 1]; for
a cached criterion key a raw cosine above 1 is clamped to exactly 1 and a
raw cosine below 0 to exactly 0. -/
theorem C8_semantic_similarity_clamped (rawCos : List Char → String → ℚ)
    (text : List Char) (key : String) :
    (0 ≤ compute_semantic_similarity rawCos text key
      ∧ compute_semantic_similarity rawCos text key ≤ 1)
    ∧ (key ∈ criterionKeys →
        (1 < rawCos text key → compute_semantic_similarity rawCos text key = 1)
        ∧ (rawCos text key < 0 → compute_semantic_similarity rawCos text key = 0)) := by
  unfold compute_semantic_similarity
  split_ifs with h
  · refine ⟨⟨le_max_left 0 _, max_le (by norm_num) (min_le_left 1 _)⟩, ?_⟩
    intro _
    constructor
    · intro hgt
      rw [min_eq_left hgt.le, max_eq_right (by norm_num : (0 : ℚ) ≤ 1)]
    · intro hlt
      rw [min_eq_right (by linarith : rawCos text key ≤ 1), max_eq_left hlt.le]
  · exact ⟨⟨le_refl 0, by norm_num⟩, fun hk => absurd hk h⟩

/-- Witness for C8 at concrete inputs: a raw cosine of 2 clamps to 1 and a
raw cosine of -1 clamps to 0 for the cached key "content". -/
theorem C8_semantic_similarity_clamped_witness :
    compute_semantic_similarity (fun _ _ => 2) [] "content" = 1
    ∧ compute_semantic_similarity (fun _ _ => -1) [] "content" = 0 := by
  have h1 := C8_semantic_similarity_clamped (fun _ _ => 2) [] "content"
  have h2 := C8_semantic_similarity_clamped (fun _ _ => -1) [] "content"
  exact ⟨(h1.2 (by simp [criterionKeys])).1 (by norm_num),
         (h2.2 (by simp [criterionKeys])).2 (by norm_num)⟩

/-- C10: `score_engagement` always returns a score in {3, 6, 9, 12, 15} —
never 0 — for every sentiment output, so `score_transcript`'s total score is
at least 3 for every input, including an empty transcript with zero
duration. -/
theorem C10_engagement_floor :
    (∀ pos : ℚ,
      ((score_engagement pos).1 = 3 ∨ (score_engagement pos).1 = 6 ∨
        (score_engagement pos).1 = 9 ∨ (score_engagement pos).1 = 12 ∨
        (score_engagement pos).1 = 15)
      ∧ (score_engagement pos).1 ≠ 0)
    ∧ (∀ (text : List Char) (duration_sec pos : ℚ)
        (rawCos : List Char → String → ℚ),
        3 ≤ (score_transcript text duration_sec pos rawCos).total_score) := by
  constructor
  · intro pos
    have h := score_engagement_band pos
    exact ⟨h, by rcases h with h | h | h | h | h <;> omega⟩
  · intro text duration_sec pos rawCos
    have e : (score_transcript text duration_sec pos rawCos).total_score
        = detect_salutation_level (preprocess_text text)
          + (score_keywords (preprocess_text text)).1
          + score_flow (get_basic_stats (preprocess_text text)).sentences
              (detect_structure_tags (get_basic_stats (preprocess_text text)).sentences)
          + (score_speech_rate (get_basic_stats (preprocess_text text)).total_words
              duration_sec).1
          + (score_grammar text (get_basic_stats (preprocess_text text)).total_words).1
          + (score_vocabulary (get_basic_stats (preprocess_text text)).total_words
              (get_basic_stats (preprocess_text text)).distinct_words).1
          + (score_clarity (preprocess_text text)
              (get_basic_stats (preprocess_text text)).total_words).1
          + (score_engagement pos).1 := rfl
    have h := score_engagement_ge pos
    omega

theorem containsAny_of_mem (t : List Char) (ps : List String) (p : String)
    (hp : p ∈ ps) (h : hasSub t p.toList = true) : containsAny t ps = true := by
  unfold containsAny
  rw [List.any_eq_true]
  exact ⟨p, hp, h⟩

/-- Number of detected must-have concepts. -/
def mustCount (text : List Char) : ℕ :=
  let kw := detect_keywords text
  kw.has_name.toNat + kw.has_age.toNat + kw.has_school_class.toNat
    + kw.has_family.toNat + kw.has_hobbies.toNat

/-- Number of detected good-to-have concepts. -/
def goodCount (text : List Char) : ℕ :=
  let kw := detect_keywords text
  kw.has_about_family.toNat + kw.has_location.toNat + kw.has_ambition.toNat
    + kw.has_fun_fact.toNat + kw.has_strengths_or_achievements.toNat

theorem mustItems_filter_len (kw : KeywordFlags) :
    ((mustHaveItems kw).filter (fun p => p.2)).length =
      kw.has_name.toNat + kw.has_age.toNat + kw.has_school_class.toNat
        + kw.has_family.toNat + kw.has_hobbies.toNat := by
  rcases kw with ⟨n, a, s, f, h, _, _, _, _, _⟩
  cases n <;> cases a <;> cases s <;> cases f <;> cases h <;> rfl

theorem goodItems_filter_len (kw : KeywordFlags) :
    ((goodToHaveItems kw).filter (fun p => p.2)).length =
      kw.has_about_family.toNat + kw.has_location.toNat + kw.has_ambition.toNat
        + kw.has_fun_fact.toNat + kw.has_strengths_or_achievements.toNat := by
  rcases kw with ⟨_, _, _, _, _, af, lo, am, ff, st⟩
  cases af <;> cases lo <;> cases am <;> cases ff <;> cases st <;> rfl

/-- C5: the keyword score is 4 times the number of detected must-have
concepts plus 2 times the number of detected good-to-have concepts, at most
30; a transcript containing "my name is", "14 years old", "class 9",
"my parents" and "i enjoy reading" triggers all five must-haves for exactly
20 points plus 2 per matched good-to-have. -/
theorem C5_keyword_scoring (text : List Char) :
    (score_keywords text).1 = 4 * mustCount text + 2 * goodCount text
    ∧ (score_keywords text).1 ≤ 30
    ∧ (hasSub (lowerList text) "my name is".toList = true →
       hasSub (lowerList text) "14 years old".toList = true →
       hasSub (lowerList text) "class 9".toList = true →
       hasSub (lowerList text) "my parents".toList = true →
       hasSub (lowerList text) "i enjoy reading".toList = true →
       mustCount text = 5
       ∧ (score_keywords text).1 = 20 + 2 * goodCount text) := by
  have e : (score_keywords text).1 = 4 * mustCount text + 2 * goodCount text := by
    rw [score_keywords_fst, mustItems_filter_len, goodItems_filter_len]
    rfl
  refine ⟨e, score_keywords_le text, ?_⟩
  intro h1 h2 h3 h4 h5
  have f1 : (detect_keywords text).has_name = true := by
    show containsAny (lowerList text) ["my name is", "myself", "i am "] = true
    exact containsAny_of_mem _ _ "my name is" (by simp) h1
  have f2 : (detect_keywords text).has_age = true := by
    show hasSub (lowerList text) "years old".toList = true
    exact hasSub_trans _ _ _ h2 (by decide)
  have f3 : (detect_keywords text).has_school_class = true := by
    show containsAny (lowerList text) ["class ", "standard", "grade ", "school"] = true
    exact containsAny_of_mem _ _ "class " (by simp)
      (hasSub_trans _ _ _ h3 (by decide))
  have f4 : (detect_keywords text).has_family = true := by
    show containsAny (lowerList text)
      ["family", "mother", "father", "parents", "brother", "sister"] = true
    exact containsAny_of_mem _ _ "parents" (by simp)
      (hasSub_trans _ _ _ h4 (by decide))
  have f5 : (detect_keywords text).has_hobbies = true := by
    show containsAny (lowerList text)
      ["my hobby is", "my hobbies are", "i like to", "i love to",
       "i enjoy", "in my free time"] = true
    exact containsAny_of_mem _ _ "i enjoy" (by simp)
      (hasSub_trans _ _ _ h5 (by decide))
  have hm : mustCount text = 5 := by
    show (detect_keywords text).has_name.toNat
        + (detect_keywords text).has_age.toNat
        + (detect_keywords text).has_school_class.toNat
        + (detect_keywords text).has_family.toNat
        + (detect_keywords text).has_hobbies.toNat = 5
    rw [f1, f2, f3, f4, f5]
    rfl
  refine ⟨hm, ?_⟩
  rw [e, hm]

/-- Witness for C5: a concrete transcript with all five must-have phrases
scores 20 plus 2 per good-to-have. -/
theorem C5_keyword_scoring_witness :
    mustCount "my name is arjun and i am 14 years old in class 9 and my parents i enjoy reading".toList = 5
    ∧ (score_keywords "my name is arjun and i am 14 years old in class 9 and my parents i enjoy reading".toList).1
      = 20 + 2 * goodCount "my name is arjun and i am 14 years old in class 9 and my parents i enjoy reading".toList := by
  exact (C5_keyword_scoring _).2.2 (by decide) (by decide) (by decide)
    (by decide) (by decide)

/-- Band map for the filler rate, as the specification states it. -/
def clarityBand (rate : ℚ) : ℕ :=
  if 0 ≤ rate ∧ rate ≤ 3 then 15
  else if 4 ≤ rate ∧ rate ≤ 6 then 12
  else if 7 ≤ rate ∧ rate ≤ 9 then 9
  else if 10 ≤ rate ∧ rate ≤ 12 then 6
  else 3

/-- C7: for positive word counts, `score_clarity` reports the filler count
over the fixed 15-term list, the rate filler_count/total_words*100, and the
banded score 0-3 to 15, 4-6 to 12, 7-9 to 9, 10-12 to 6, else 3; five filler
occurrences over 100 words give rate 5 and score 12. -/
theorem C7_clarity_bands (text : List Char) (total_words : ℕ)
    (h : 0 < total_words) :
    (score_clarity text total_words).2.2 = count_filler_words text fillerList
    ∧ (score_clarity text total_words).2.1
        = (count_filler_words text fillerList : ℚ) / (total_words : ℚ) * 100
    ∧ (score_clarity text total_words).1
        = clarityBand ((count_filler_words text fillerList : ℚ) / (total_words : ℚ) * 100)
    ∧ (count_filler_words text fillerList = 5 → total_words = 100 →
        (score_clarity text total_words).1 = 12
        ∧ (score_clarity text total_words).2.1 = 5) := by
  have hne : ¬ total_words = 0 := by omega
  have e1 : (score_clarity text total_words).2.2 = count_filler_words text fillerList := by
    unfold score_clarity
    rw [if_neg hne]
  have e2 : (score_clarity text total_words).2.1
      = (count_filler_words text fillerList : ℚ) / (total_words : ℚ) * 100 := by
    unfold score_clarity
    rw [if_neg hne]
  have e3 : (score_clarity text total_words).1
      = clarityBand ((count_filler_words text fillerList : ℚ) / (total_words : ℚ) * 100) := by
    unfold score_clarity clarityBand
    rw [if_neg hne]
  refine ⟨e1, e2, e3, ?_⟩
  intro hc hw
  subst hw
  rw [hc] at e2 e3
  norm_num at e2 e3
  refine ⟨?_, e2⟩
  rw [e3]
  norm_num [clarityBand]

/-- Witness for C7: five "um" tokens counted as fillers over a word count of
100 give rate 5 and clarity score 12. -/
theorem C7_clarity_bands_witness :
    (score_clarity "um um um um um".toList 100).1 = 12
    ∧ (score_clarity "um um um um um".toList 100).2.1 = 5 := by
  exact (C7_clarity_bands "um um um um um".toList 100 (by norm_num)).2.2.2
    (by decide) rfl

theorem lowerChar_of_isSpace (c : Char) (h : isSpace c = true) :
    lowerChar c = c := by
  simp only [isSpace, Bool.or_eq_true, decide_eq_true_eq] at h
  rcases h with (((((rfl | rfl) | rfl) | rfl) | rfl) | rfl) <;> decide

theorem lowerList_allSpace (t : List Char) (h : ∀ c ∈ t, isSpace c = true) :
    lowerList t = t := by
  induction t with
  | nil => rfl
  | cons c cs ih =>
    have hc : lowerChar c = c := lowerChar_of_isSpace c (h c (by simp))
    have hcs : lowerList cs = cs := ih (fun x hx => h x (by simp [hx]))
    simp only [lowerList, List.map_cons] at hcs ⊢
    rw [hc, hcs]

theorem lstrip_allSpace (t : List Char) (h : ∀ c ∈ t, isSpace c = true) :
    lstrip t = [] := by
  induction t with
  | nil => rfl
  | cons c cs ih =>
    simp only [lstrip, List.dropWhile_cons, h c (by simp), if_true]
    exact ih (fun x hx => h x (by simp [hx]))

theorem stripWS_allSpace (t : List Char) (h : ∀ c ∈ t, isSpace c = true) :
    stripWS t = [] := by
  unfold stripWS
  rw [lstrip_allSpace t h]
  rfl

theorem get_basic_stats_allSpace (text : List Char)
    (h : ∀ c ∈ text, isSpace c = true) :
    get_basic_stats text =
      { tokens := [], total_words := 0, distinct_words := 0
        sentences := [], sentence_count := 0 } := by
  unfold get_basic_stats
  rw [stripWS_allSpace text h]
  rfl

theorem hasSub_allSpace_false (t pat : List Char)
    (ht : ∀ c ∈ t, isSpace c = true) (hp : ∃ c ∈ pat, isSpace c = false) :
    hasSub t pat = false := by
  by_contra hcon
  have htrue : hasSub t pat = true := by
    cases hval : hasSub t pat
    · exact absurd hval hcon
    · rfl
  obtain ⟨c, hc, hcs⟩ := hp
  have := ht c (mem_of_hasSub t pat htrue c hc)
  rw [this] at hcs
  simp at hcs

theorem containsAny_allSpace_false (t : List Char) (ps : List String)
    (ht : ∀ c ∈ t, isSpace c = true)
    (hps : ps.all (fun p => p.toList.any (fun c => !(isSpace c))) = true) :
    containsAny t ps = false := by
  unfold containsAny
  rw [List.any_eq_false]
  intro p hp
  rw [List.all_eq_true] at hps
  have hone := hps p hp
  rw [List.any_eq_true] at hone
  obtain ⟨c, hc, hcs⟩ := hone
  rw [Bool.not_eq_true'] at hcs
  simp only [hasSub_allSpace_false t p.toList ht ⟨c, hc, hcs⟩,
    Bool.false_eq_true, not_false_eq_true]

theorem detect_salutation_level_allSpace (text : List Char)
    (h : ∀ c ∈ text, isSpace c = true) :
    detect_salutation_level text = 0 := by
  unfold detect_salutation_level
  split_ifs with he
  · rfl
  · rw [get_basic_stats_allSpace text h]

theorem detect_keywords_allSpace (text : List Char)
    (h : ∀ c ∈ text, isSpace c = true) :
    detect_keywords text =
      { has_name := false, has_age := false, has_school_class := false
        has_family := false, has_hobbies := false, has_about_family := false
        has_location := false, has_ambition := false, has_fun_fact := false
        has_strengths_or_achievements := false } := by
  have hl : lowerList text = text := lowerList_allSpace text h
  unfold detect_keywords
  rw [hl]
  simp only [KeywordFlags.mk.injEq]
  refine ⟨?_, ?_, ?_, ?_, ?_, ?_, ?_, ?_, ?_, ?_⟩
  · exact containsAny_allSpace_false text _ h (by decide)
  · exact hasSub_allSpace_false text _ h (by decide)
  · exact containsAny_allSpace_false text _ h (by decide)
  · exact containsAny_allSpace_false text _ h (by decide)
  · exact containsAny_allSpace_false text _ h (by decide)
  · exact containsAny_allSpace_false text _ h (by decide)
  · exact containsAny_allSpace_false text _ h (by decide)
  · exact containsAny_allSpace_false text _ h (by decide)
  · exact containsAny_allSpace_false text _ h (by decide)
  · exact containsAny_allSpace_false text _ h (by decide)

/-- C2 counterexample: the engagement sub-scorer does not return 0 on the
degenerate input.  VADER reports `pos = 0.0` for an empty transcript, and the
band mapping of `score_engagement` sends it to 3, its minimum — not 0. -/
theorem C2_counterexample :
    (score_engagement 0).1 ≠ 0 ∧ (score_engagement 0).1 = 3 := by
  constructor <;> norm_num [score_engagement]

/-- C2 (amended): on degenerate input (empty or whitespace-only transcript,
hence zero words; zero-or-negative duration where duration applies), the
seven sub-scorers salutation, keywords, flow, speech rate, grammar,
vocabulary and clarity return 0 rather than raising, while engagement
returns 3 (its minimum band, taken at VADER's `pos = 0.0` for empty text)
and is never below 3. -/
theorem C2_degenerate_inputs (text : List Char)
    (htext : ∀ c ∈ text, isSpace c = true) :
    (get_basic_stats text).total_words = 0
    ∧ (get_basic_stats text).sentences = []
    ∧ score_salutation text = 0
    ∧ (score_keywords text).1 = 0
    ∧ (∀ tags : List String, score_flow (get_basic_stats text).sentences tags = 0)
    ∧ (∀ d : ℚ, score_speech_rate 0 d = (0, 0))
    ∧ (∀ (w : ℕ) (d : ℚ), d ≤ 0 → score_speech_rate w d = (0, 0))
    ∧ score_grammar text 0 = (0, 0)
    ∧ (∀ dw : ℕ, score_vocabulary 0 dw = (0, 0))
    ∧ score_clarity text 0 = (0, 0, 0)
    ∧ (score_engagement 0).1 = 3
    ∧ (∀ pos : ℚ, 3 ≤ (score_engagement pos).1) := by
  have hstats := get_basic_stats_allSpace text htext
  refine ⟨by rw [hstats], by rw [hstats], ?_, ?_, ?_, ?_, ?_, ?_, ?_, ?_, ?_,
    score_engagement_ge⟩
  · exact detect_salutation_level_allSpace text htext
  · rw [score_keywords_fst, detect_keywords_allSpace text htext]
    rfl
  · intro tags
    rw [hstats]
    unfold score_flow
    rw [if_pos (Or.inl rfl)]
  · intro d
    unfold score_speech_rate
    rw [if_pos (Or.inl rfl)]
  · intro w d hd
    unfold score_speech_rate
    rw [if_pos (Or.inr hd)]
  · unfold score_grammar
    rw [if_pos rfl]
  · intro dw
    unfold score_vocabulary
    rw [if_pos rfl]
  · unfold score_clarity
    rw [if_pos rfl]
  · norm_num [score_engagement]

/-- Witness for C2 (amended) at the concrete whitespace-only transcript. -/
theorem C2_degenerate_inputs_witness :
    score_salutation " ".toList = 0 ∧ (score_keywords " ".toList).1 = 0
    ∧ score_clarity " ".toList 0 = (0, 0, 0) := by
  have h := C2_degenerate_inputs " ".toList (by decide)
  exact ⟨h.2.2.1, h.2.2.2.1, h.2.2.2.2.2.2.2.2.2.1⟩

theorem splitOnP_ne_nil (p : Char → Bool) (l : List Char) :
    splitOnP p l ≠ [] := by
  cases l with
  | nil => simp [splitOnP]
  | cons c cs =>
    unfold splitOnP
    split_ifs <;> simp

theorem splitOnP_cons_sep (p : Char → Bool) (c : Char) (l : List Char)
    (hc : p c = true) : splitOnP p (c :: l) = [] :: splitOnP p l := by
  simp only [splitOnP, hc, if_true]

theorem splitOnP_cons_not (p : Char → Bool) (c : Char) (l : List Char)
    (hc : p c = false) :
    splitOnP p (c :: l) =
      (c :: (splitOnP p l).headD []) :: (splitOnP p l).tail := by
  simp only [splitOnP, hc, Bool.false_eq_true, if_false]

theorem splitOnP_append_noSep (p : Char → Bool) (s t : List Char)
    (hs : ∀ c ∈ s, p c = false) :
    splitOnP p (s ++ t) =
      (s ++ (splitOnP p t).headD []) :: (splitOnP p t).tail := by
  induction s with
  | nil =>
    cases h : splitOnP p t with
    | nil => exact absurd h (splitOnP_ne_nil p t)
    | cons a as => simp [h]
  | cons c s' ih =>
    have hc : p c = false := hs c (by simp)
    have ih' := ih (fun x hx => hs x (by simp [hx]))
    simp only [List.cons_append, splitOnP_cons_not p c (s' ++ t) hc, ih']
    simp

theorem rstrip_append (a b : List Char) (c : Char) (r' : List Char)
    (ha : a.reverse = c :: r') (hc : isSpace c = false) :
    rstrip (a ++ b) = a ++ rstrip b := by
  unfold rstrip
  rw [List.reverse_append, List.dropWhile_append]
  split_ifs with h
  · have hb : List.dropWhile isSpace b.reverse = [] := by
      simpa using h
    rw [ha, List.dropWhile_cons, hc, hb]
    simp [← ha]
  · rw [List.reverse_append]
    congr 1
    exact List.reverse_reverse a

theorem rstrip_cons_not (c : Char) (b : List Char) (hc : isSpace c = false) :
    rstrip (c :: b) = c :: rstrip b := by
  have := rstrip_append [c] b c [] (by simp) hc
  simpa using this

theorem lstrip_cons_not (c : Char) (l : List Char) (hc : isSpace c = false) :
    lstrip (c :: l) = c :: l := by
  unfold lstrip
  rw [List.dropWhile_cons, hc]
  simp

theorem stripWS_cons_append (c0 : Char) (a' b : List Char)
    (h0 : isSpace c0 = false) (c1 : Char) (r' : List Char)
    (ha : (c0 :: a').reverse = c1 :: r') (hc1 : isSpace c1 = false) :
    stripWS ((c0 :: a') ++ b) = (c0 :: a') ++ rstrip b := by
  unfold stripWS
  rw [List.cons_append, lstrip_cons_not c0 (a' ++ b) h0, ← List.cons_append]
  exact rstrip_append (c0 :: a') b c1 r' ha hc1

theorem stripWS_id_of (c0 : Char) (a' : List Char) (h0 : isSpace c0 = false)
    (c1 : Char) (r' : List Char) (ha : (c0 :: a').reverse = c1 :: r')
    (hc1 : isSpace c1 = false) : stripWS (c0 :: a') = c0 :: a' := by
  have := stripWS_cons_append c0 a' [] h0 c1 r' ha hc1
  simpa [rstrip] using this

theorem isSpace_of_isPunct (c : Char) (h : isPunct c = true) :
    isSpace c = false := by
  simp only [isPunct, Bool.or_eq_true, decide_eq_true_eq] at h
  rcases h with (rfl | rfl) | rfl <;> decide

theorem get_basic_stats_sentences (text : List Char)
    (h : ¬ stripWS text = []) :
    (get_basic_stats text).sentences =
      ((splitOnP isPunct (stripWS text)).map stripWS).filter (· ≠ []) := by
  simp only [get_basic_stats]
  rw [if_neg h]

theorem sentences_terminated (c0 : Char) (a' : List Char) (p : Char)
    (b : List Char) (h0 : isSpace c0 = false) (c1 : Char) (r' : List Char)
    (ha : (c0 :: a').reverse = c1 :: r') (hc1 : isSpace c1 = false)
    (hnp : ∀ c ∈ c0 :: a', isPunct c = false) (hp : isPunct p = true) :
    ∃ rest, (get_basic_stats ((c0 :: a') ++ p :: b)).sentences
      = (c0 :: a') :: rest := by
  have hps : isSpace p = false := isSpace_of_isPunct p hp
  have hclean : stripWS ((c0 :: a') ++ p :: b) = (c0 :: a') ++ (p :: rstrip b) := by
    rw [stripWS_cons_append c0 a' (p :: b) h0 c1 r' ha hc1,
      rstrip_cons_not p b hps]
  have hstrip : ¬ stripWS ((c0 :: a') ++ p :: b) = [] := by
    rw [hclean]
    simp
  refine ⟨((splitOnP isPunct (rstrip b)).map stripWS).filter (· ≠ []), ?_⟩
  rw [get_basic_stats_sentences _ hstrip, hclean,
    splitOnP_append_noSep isPunct (c0 :: a') (p :: rstrip b) hnp,
    splitOnP_cons_sep isPunct p (rstrip b) hp]
  simp only [List.headD_cons, List.tail_cons, List.append_nil, List.map_cons,
    List.filter_cons, stripWS_id_of c0 a' h0 c1 r' ha hc1]
  simp

theorem sentences_unterminated (c0 : Char) (a' : List Char) (b : List Char)
    (h0 : isSpace c0 = false) (c1 : Char) (r' : List Char)
    (ha : (c0 :: a').reverse = c1 :: r') (hc1 : isSpace c1 = false)
    (hnp : ∀ c ∈ c0 :: a', isPunct c = false) :
    ∃ u rest, (get_basic_stats ((c0 :: a') ++ b)).sentences
      = ((c0 :: a') ++ u) :: rest := by
  have hclean : stripWS ((c0 :: a') ++ b) = (c0 :: a') ++ rstrip b :=
    stripWS_cons_append c0 a' b h0 c1 r' ha hc1
  have hstrip : ¬ stripWS ((c0 :: a') ++ b) = [] := by
    rw [hclean]
    simp
  refine ⟨rstrip ((splitOnP isPunct (rstrip b)).headD []),
    ((splitOnP isPunct (rstrip b)).tail.map stripWS).filter (· ≠ []), ?_⟩
  rw [get_basic_stats_sentences _ hstrip, hclean,
    splitOnP_append_noSep isPunct (c0 :: a') (rstrip b) hnp]
  simp only [List.map_cons, List.filter_cons]
  rw [stripWS_cons_append c0 a' ((splitOnP isPunct (rstrip b)).headD [])
    h0 c1 r' ha hc1]
  simp

theorem detect_of_sentences_cons (text first : List Char)
    (rest : List (List Char)) (hne : text ≠ [])
    (hs : (get_basic_stats text).sentences = first :: rest) :
    detect_salutation_level text = salutationTier (lowerList first) := by
  unfold detect_salutation_level
  rw [if_neg hne, hs]

/-- C4 counterexample: the text "Hi everyone hello everybody" starts with
"Hi everyone", yet its (single) first sentence also contains the formal
greeting "hello everybody", so the prioritized tier scan returns 4, not the
2 the claim requires of every text starting "Hi everyone...". -/
theorem C4_counterexample :
    detect_salutation_level "Hi everyone hello everybody".toList = 4
    ∧ detect_salutation_level "Hi everyone hello everybody".toList ≠ 2 := by
  constructor <;> decide

/-- C4 (amended): `detect_salutation_level` examines only the first sentence
and checks the three prioritized phrase tiers in order (enthusiastic 5, then
formal 4, then simple 2, no match 0, first match wins); every text starting
"Good morning! " scores 4, every text starting "I am thrilled to introduce
myself" scores 5, and every text starting "Hi everyone" followed by a
sentence-ending punctuation mark scores 2 — a continuation of the first
sentence that reaches a higher tier (such as "hello everybody") takes
priority over the simple greeting "hi". -/
theorem C4_salutation_tiers :
    (∀ (text first : List Char) (rest : List (List Char)), text ≠ [] →
      (get_basic_stats text).sentences = first :: rest →
      detect_salutation_level text =
        (if containsAny (lowerList first) enthusiastic_phrases then 5
         else if containsAny (lowerList first) formal_greetings then 4
         else if containsAny (lowerList first) simple_greetings then 2
         else 0))
    ∧ (∀ rest : List Char,
        detect_salutation_level ("Good morning! ".toList ++ rest) = 4)
    ∧ (∀ (p : Char) (rest : List Char), isPunct p = true →
        detect_salutation_level ("Hi everyone".toList ++ p :: rest) = 2)
    ∧ (∀ rest : List Char,
        detect_salutation_level
          ("I am thrilled to introduce myself".toList ++ rest) = 5) := by
  refine ⟨?_, ?_, ?_, ?_⟩
  · intro text first rest hne hs
    rw [detect_of_sentences_cons text first rest hne hs]
    rfl
  · intro rest
    have hsplit : "Good morning! ".toList ++ rest
        = ('G' :: "ood morning".toList) ++ '!' :: (' ' :: rest) := by
      have h1 : "Good morning! ".toList
          = ('G' :: "ood morning".toList) ++ ['!', ' '] := rfl
      rw [h1, List.append_assoc]
      rfl
    obtain ⟨rest', hsent⟩ := sentences_terminated 'G' "ood morning".toList
      '!' (' ' :: rest) (by decide) _ _ rfl (by decide) (by decide) (by decide)
    rw [hsplit, detect_of_sentences_cons _ _ _ (by simp) hsent]
    decide
  · intro p rest hp
    have hsplit : "Hi everyone".toList ++ p :: rest
        = ('H' :: "i everyone".toList) ++ p :: rest := rfl
    obtain ⟨rest', hsent⟩ := sentences_terminated 'H' "i everyone".toList
      p rest (by decide) _ _ rfl (by decide) (by decide) hp
    rw [hsplit, detect_of_sentences_cons _ _ _ (by simp) hsent]
    decide
  · intro rest
    have hsplit : "I am thrilled to introduce myself".toList ++ rest
        = ('I' :: " am thrilled to introduce myself".toList) ++ rest := rfl
    obtain ⟨u, rest', hsent⟩ := sentences_unterminated 'I'
      " am thrilled to introduce myself".toList rest (by decide) _ _ rfl
      (by decide) (by decide)
    rw [hsplit, detect_of_sentences_cons _ _ _ (by simp) hsent]
    have hthr : hasSub
        (lowerList (('I' :: " am thrilled to introduce myself".toList) ++ u))
        "thrilled to introduce myself".toList = true := by
      simp only [lowerList, List.map_append]
      exact hasSub_append_right _ _ _ (by decide)
    unfold salutationTier
    rw [if_pos (containsAny_of_mem _ _ "thrilled to introduce myself"
      (by simp [enthusiastic_phrases]) hthr)]

/-- Witness for C4 (amended) at concrete continuations of the three
families. -/
theorem C4_salutation_tiers_witness :
    detect_salutation_level ("Good morning! ".toList ++ "friends".toList) = 4
    ∧ detect_salutation_level ("Hi everyone".toList ++ '!' :: " nice to meet you".toList) = 2
    ∧ detect_salutation_level
        ("I am thrilled to introduce myself".toList ++ " today".toList) = 5 := by
  exact ⟨C4_salutation_tiers.2.1 _, C4_salutation_tiers.2.2.1 '!' _ (by decide),
    C4_salutation_tiers.2.2.2 _⟩

theorem toNat_lowerChar_of_upper (c : Char) (h : 'A' ≤ c ∧ c ≤ 'Z') :
    (lowerChar c).toNat = c.toNat + 32 := by
  have h2 : c.toNat ≤ 90 := h.2
  have hv : (c.toNat + 32).isValidChar := by
    left
    omega
  unfold lowerChar
  rw [if_pos h]
  unfold Char.ofNat
  split
  · rfl
  · rename_i hh
    exact absurd hv hh

theorem lowerChar_not_upper (c : Char) (h : ¬('A' ≤ c ∧ c ≤ 'Z')) :
    lowerChar c = c := by
  unfold lowerChar
  rw [if_neg h]

theorem lowerChar_lowerChar (c : Char) :
    lowerChar (lowerChar c) = lowerChar c := by
  by_cases h : 'A' ≤ c ∧ c ≤ 'Z'
  · have h1 : 65 ≤ c.toNat := h.1
    have ht := toNat_lowerChar_of_upper c h
    have hnot : ¬('A' ≤ lowerChar c ∧ lowerChar c ≤ 'Z') := by
      intro hup
      have h90 : (lowerChar c).toNat ≤ 90 := hup.2
      omega
    exact lowerChar_not_upper _ hnot
  · rw [lowerChar_not_upper c h]
    exact lowerChar_not_upper c h

theorem isSpace_lowerChar (c : Char) :
    isSpace (lowerChar c) = isSpace c := by
  by_cases h : 'A' ≤ c ∧ c ≤ 'Z'
  · have h1 : 65 ≤ c.toNat := h.1
    have h2 : c.toNat ≤ 90 := h.2
    have ht := toNat_lowerChar_of_upper c h
    have hs1 : isSpace c = false := by
      unfold isSpace
      simp only [Bool.or_eq_false_iff, decide_eq_false_iff_not]
      refine ⟨⟨⟨⟨⟨?_, ?_⟩, ?_⟩, ?_⟩, ?_⟩, ?_⟩ <;>
        · intro hc
          rw [hc] at h1
          exact absurd h1 (by decide)
    have hge : 97 ≤ (lowerChar c).toNat := by omega
    have hs2 : isSpace (lowerChar c) = false := by
      unfold isSpace
      simp only [Bool.or_eq_false_iff, decide_eq_false_iff_not]
      refine ⟨⟨⟨⟨⟨?_, ?_⟩, ?_⟩, ?_⟩, ?_⟩, ?_⟩ <;>
        · intro hc
          rw [hc] at hge
          exact absurd hge (by decide)
    rw [hs1, hs2]
  · rw [lowerChar_not_upper c h]

theorem lowerChar_space : lowerChar ' ' = ' ' := by decide

/-- Property of normalized whitespace: no two adjacent whitespace
characters. -/
def NoAdjSpace (l : List Char) : Prop :=
  List.Chain' (fun a b => ¬(isSpace a = true ∧ isSpace b = true)) l

theorem collapseWS_space_mem (x : List Char) :
    ∀ c ∈ collapseWS x, isSpace c = true → c = ' ' := by
  induction x with
  | nil => simp [collapseWS]
  | cons c0 x ih =>
    intro c hc hcs
    simp only [collapseWS] at hc
    by_cases h0 : isSpace c0 = true
    · rw [if_pos h0] at hc
      revert hc
      split
      · intro hc
        exact ih c hc hcs
      · intro hc
        rcases List.mem_cons.mp hc with rfl | hmem
        · rfl
        · exact ih c hmem hcs
    · rw [if_neg h0] at hc
      rcases List.mem_cons.mp hc with rfl | hmem
      · rw [hcs] at h0
        exact absurd rfl h0
      · exact ih c hmem hcs

theorem collapseWS_noAdj (x : List Char) : NoAdjSpace (collapseWS x) := by
  induction x with
  | nil => simp [collapseWS, NoAdjSpace]
  | cons c0 x ih =>
    simp only [collapseWS]
    by_cases h0 : isSpace c0 = true
    · rw [if_pos h0]
      split
      · exact ih
      · rename_i hne
        cases hxx : collapseWS x with
        | nil => simp [NoAdjSpace]
        | cons a as =>
          unfold NoAdjSpace
          rw [List.chain'_cons]
          constructor
          · rintro ⟨-, h2⟩
            have ha := collapseWS_space_mem x a (by rw [hxx]; simp) h2
            exact hne as (by rw [hxx, ha])
          · rw [← hxx]
            exact ih
    · rw [if_neg h0]
      cases hxx : collapseWS x with
      | nil => simp [NoAdjSpace]
      | cons a as =>
        unfold NoAdjSpace
        rw [List.chain'_cons]
        constructor
        · rintro ⟨h1, -⟩
          exact h0 h1
        · rw [← hxx]
          exact ih

theorem collapseWS_id (y : List Char)
    (hsp : ∀ c ∈ y, isSpace c = true → c = ' ')
    (hadj : NoAdjSpace y) : collapseWS y = y := by
  induction y with
  | nil => rfl
  | cons c0 y' ih =>
    have ih' : collapseWS y' = y' :=
      ih (fun c hc hs => hsp c (by simp [hc]) hs) (List.Chain'.tail hadj)
    simp only [collapseWS, ih']
    by_cases h0 : isSpace c0 = true
    · have hc0 : c0 = ' ' := hsp c0 (by simp) h0
      rw [if_pos h0]
      subst hc0
      split
      · exfalso
        unfold NoAdjSpace at hadj
        exact (List.chain'_cons.mp hadj).1 ⟨by decide, by decide⟩
      · rfl
    · rw [if_neg h0]

theorem noAdj_dropWhile (p : Char → Bool) (l : List Char)
    (h : NoAdjSpace l) : NoAdjSpace (l.dropWhile p) := by
  induction l with
  | nil => simpa using h
  | cons c l' ih =>
    rw [List.dropWhile_cons]
    split_ifs
    · exact ih (List.Chain'.tail h)
    · exact h

theorem noAdjSpace_reverse (l : List Char) (h : NoAdjSpace l) :
    NoAdjSpace l.reverse := by
  unfold NoAdjSpace at h ⊢
  rw [List.chain'_reverse]
  exact List.Chain'.imp (fun a b hab hc => hab ⟨hc.2, hc.1⟩) h

theorem noAdj_rstrip (l : List Char) (h : NoAdjSpace l) :
    NoAdjSpace (rstrip l) := by
  unfold rstrip
  exact noAdjSpace_reverse _ (noAdj_dropWhile _ _ (noAdjSpace_reverse l h))

theorem noAdj_stripWS (l : List Char) (h : NoAdjSpace l) :
    NoAdjSpace (stripWS l) := by
  unfold stripWS lstrip
  exact noAdj_rstrip _ (noAdj_dropWhile _ _ h)

theorem mem_rstrip (l : List Char) (c : Char) (h : c ∈ rstrip l) : c ∈ l := by
  unfold rstrip at h
  have h1 := List.mem_reverse.mp h
  have h2 := List.Sublist.mem h1 (List.dropWhile_sublist _)
  exact List.mem_reverse.mp h2

theorem mem_stripWS (l : List Char) (c : Char) (h : c ∈ stripWS l) : c ∈ l := by
  unfold stripWS lstrip at h
  exact List.Sublist.mem (mem_rstrip _ c h) (List.dropWhile_sublist _)

theorem head_dropWhile_not_space (y : List Char) :
    ∀ c, (y.dropWhile isSpace).head? = some c → isSpace c = false := by
  induction y with
  | nil => simp
  | cons c0 y' ih =>
    rw [List.dropWhile_cons]
    split_ifs with h0
    · exact ih
    · intro c hc
      rw [List.head?_cons, Option.some.injEq] at hc
      subst hc
      simpa using h0

theorem head_rstrip_not_space (l : List Char)
    (h : ∀ c, l.head? = some c → isSpace c = false) :
    ∀ c, (rstrip l).head? = some c → isSpace c = false := by
  cases l with
  | nil => simp [rstrip]
  | cons c0 l' =>
    have h0 : isSpace c0 = false := h c0 rfl
    rw [rstrip_cons_not c0 l' h0]
    intro c hc
    rw [List.head?_cons, Option.some.injEq] at hc
    subst hc
    exact h0

theorem head_stripWS_not_space (l : List Char) :
    ∀ c, (stripWS l).head? = some c → isSpace c = false := by
  unfold stripWS
  exact head_rstrip_not_space (lstrip l) (head_dropWhile_not_space l)

theorem last_stripWS_not_space (l : List Char) :
    ∀ c, (stripWS l).reverse.head? = some c → isSpace c = false := by
  unfold stripWS rstrip
  rw [List.reverse_reverse]
  exact head_dropWhile_not_space (lstrip l).reverse

theorem lstrip_id_of_head (l : List Char)
    (h : ∀ c, l.head? = some c → isSpace c = false) : lstrip l = l := by
  cases l with
  | nil => rfl
  | cons c0 l' => exact lstrip_cons_not c0 l' (h c0 rfl)

theorem rstrip_id_of_last (l : List Char)
    (h : ∀ c, l.reverse.head? = some c → isSpace c = false) : rstrip l = l := by
  unfold rstrip
  rw [show List.dropWhile isSpace l.reverse = l.reverse from
    lstrip_id_of_head l.reverse h, List.reverse_reverse]

theorem replaceNL_id (y : List Char)
    (hsp : ∀ c ∈ y, isSpace c = true → c = ' ') : replaceNL y = y := by
  unfold replaceNL
  have hfn : ∀ c ∈ y,
      (if c = '\r' then ' ' else if c = '\n' then ' ' else c) = id c := by
    intro c hc
    by_cases h1 : c = '\r'
    · exact absurd (hsp c hc (by rw [h1]; decide)) (by rw [h1]; decide)
    · by_cases h2 : c = '\n'
      · exact absurd (hsp c hc (by rw [h2]; decide)) (by rw [h2]; decide)
      · simp [h1, h2]
  rw [List.map_congr_left hfn, List.map_id]

theorem lowerList_id_of (y : List Char) (h : ∀ c ∈ y, lowerChar c = c) :
    lowerList y = y := by
  unfold lowerList
  have hfn : ∀ c ∈ y, lowerChar c = id c := by
    intro c hc
    rw [h c hc]
    rfl
  rw [List.map_congr_left hfn, List.map_id]

theorem preprocess_out_id (z : List Char) :
    preprocess_text (lowerList (stripWS (collapseWS z)))
      = lowerList (stripWS (collapseWS z)) := by
  have Pspc_s : ∀ c ∈ stripWS (collapseWS z), isSpace c = true → c = ' ' :=
    fun c hc => collapseWS_space_mem z c (mem_stripWS _ c hc)
  have Padj_s : NoAdjSpace (stripWS (collapseWS z)) :=
    noAdj_stripWS _ (collapseWS_noAdj z)
  have Phead_s := head_stripWS_not_space (collapseWS z)
  have Plast_s := last_stripWS_not_space (collapseWS z)
  set out := lowerList (stripWS (collapseWS z)) with hdef
  have P1 : ∀ c ∈ out, isSpace c = true → c = ' ' := by
    intro c hc hcs
    rw [hdef] at hc
    obtain ⟨c0, hc0, rfl⟩ := List.mem_map.mp hc
    rw [isSpace_lowerChar] at hcs
    rw [Pspc_s c0 hc0 hcs]
    exact lowerChar_space
  have P2 : NoAdjSpace out := by
    rw [hdef]
    unfold NoAdjSpace lowerList
    rw [List.chain'_map]
    exact List.Chain'.imp
      (fun a b hab hc => hab
        ⟨by rw [← isSpace_lowerChar]; exact hc.1,
         by rw [← isSpace_lowerChar]; exact hc.2⟩) Padj_s
  have P3 : ∀ c, out.head? = some c → isSpace c = false := by
    intro c hc
    rw [hdef] at hc
    unfold lowerList at hc
    rw [List.head?_map] at hc
    cases hs0 : (stripWS (collapseWS z)).head? with
    | none =>
      rw [hs0] at hc
      simp at hc
    | some c0 =>
      rw [hs0] at hc
      simp only [Option.map_some', Option.some.injEq] at hc
      rw [← hc, isSpace_lowerChar]
      exact Phead_s c0 hs0
  have P4 : ∀ c, out.reverse.head? = some c → isSpace c = false := by
    intro c hc
    rw [hdef] at hc
    unfold lowerList at hc
    rw [← List.map_reverse, List.head?_map] at hc
    cases hs0 : (stripWS (collapseWS z)).reverse.head? with
    | none =>
      rw [hs0] at hc
      simp at hc
    | some c0 =>
      rw [hs0] at hc
      simp only [Option.map_some', Option.some.injEq] at hc
      rw [← hc, isSpace_lowerChar]
      exact Plast_s c0 hs0
  have P5 : ∀ c ∈ out, lowerChar c = c := by
    intro c hc
    rw [hdef] at hc
    obtain ⟨c0, hc0, rfl⟩ := List.mem_map.mp hc
    exact lowerChar_lowerChar c0
  by_cases h : out = []
  · rw [h]
    rfl
  · unfold preprocess_text
    rw [if_neg h, replaceNL_id out P1, collapseWS_id out P1 P2]
    have hstrip : stripWS out = out := by
      unfold stripWS
      rw [show lstrip out = out from lstrip_id_of_head out P3]
      exact rstrip_id_of_last out P4
    rw [hstrip]
    exact lowerList_id_of out P5

/-- C9: the text normalizer `preprocess_text` is idempotent — normalizing
twice equals normalizing once — and empty input yields the empty string. -/
theorem C9_preprocess_idempotent :
    (∀ text : List Char,
      preprocess_text (preprocess_text text) = preprocess_text text)
    ∧ preprocess_text [] = [] := by
  refine ⟨?_, rfl⟩
  intro text
  by_cases hnil : text = []
  · rw [hnil]
    rfl
  · have hout : preprocess_text text
        = lowerList (stripWS (collapseWS (replaceNL text))) := by
      unfold preprocess_text
      rw [if_neg hnil]
    rw [hout]
    exact preprocess_out_id (replaceNL text)
